import Mathlib

/-!
Shallow embedding of the station-proximity subsystem of llm-sky
(src/llm_sky/__init__.py and src/llm_sky/__main__.py) and proofs about it.

Modelling conventions:
* Python strings are lists of characters (`List Char`), built from Lean
  string literals via `String.data` at concrete inputs.
* Python float arithmetic is modelled exactly: parsing and bookkeeping over
  `Rat`, the transcendental geodesy (`haversine`) over `ℝ`.
* A Python exception is `none` / `Option`.
* External collaborators (the HTTP registry feed, the per-station METAR
  fetch, and the current clock) are explicit parameters.
-/

/-- Model of Python `str.strip()` (and the whitespace stripping done by
`int(str)`): remove leading and trailing whitespace characters. -/
def pyStrip (cs : List Char) : List Char :=
  ((cs.dropWhile Char.isWhitespace).reverse.dropWhile Char.isWhitespace).reverse

/-- Numeric value of a string of decimal digits (most significant first). -/
def digitsVal (cs : List Char) : Nat :=
  cs.foldl (fun a c => 10 * a + (c.toNat - 48)) 0

/-- Model of Python `int(str)`: optional surrounding whitespace, an optional
sign, then one or more ASCII decimal digits; anything else raises
`ValueError`, modelled as `none`.  (Underscore digit separators and non-ASCII
digits, which CPython also accepts, are outside the model; none of the feeds
involved contain them.) -/
def pyInt (cs : List Char) : Option Int :=
  match pyStrip cs with
  | [] => none
  | c :: rest =>
    if c = '-' then
      if rest ≠ [] ∧ rest.all Char.isDigit then some (-(digitsVal rest : Int)) else none
    else if c = '+' then
      if rest ≠ [] ∧ rest.all Char.isDigit then some ((digitsVal rest : Int)) else none
    else if (c :: rest).all Char.isDigit then some ((digitsVal (c :: rest) : Int)) else none

/-- Model of Python `str.split(sep)` for a one-character separator: always
returns at least one (possibly empty) segment. -/
def splitOnChar (sep : Char) : List Char → List (List Char)
  | [] => [[]]
  | c :: rest =>
    if c = sep then [] :: splitOnChar sep rest
    else
      match splitOnChar sep rest with
      | [] => [[c]]
      | seg :: segs => (c :: seg) :: segs

/-- Model of Python `list(map(f, xs))` for a fallible `f`: the first
exception aborts the whole map. -/
def mapOpt (f : α → Option β) : List α → Option (List β)
  | [] => some []
  | a :: l =>
    match f a with
    | none => none
    | some b => (mapOpt f l).map (fun bs => b :: bs)

/-- `llm_sky.__main__.dms_to_decimal`.  From the source: take the last
character of the token as the hemisphere (`dms[-1]`, an `IndexError` on the
empty token), split the rest on `'-'` and parse every segment with `int`
(a `ValueError` aborts), append zeros until there are at least three numbers,
unpack exactly three of them (a `ValueError` when there are more than three),
and negate the decimal value when the hemisphere is `'S'` or `'W'`.  Note the
source never checks that the hemisphere character is a valid letter. -/
def dms_to_decimal (dms : List Char) : Option Rat :=
  match dms.getLast? with
  | none => none
  | some direction =>
    match mapOpt pyInt (splitOnChar '-' dms.dropLast) with
    | none => none
    | some nums =>
      match nums ++ List.replicate (3 - nums.length) 0 with
      | [degrees, minutes, seconds] =>
        let decimal : Rat := (degrees : Rat) + (minutes : Rat) / 60 + (seconds : Rat) / 3600
        some (if direction = 'S' ∨ direction = 'W' then -decimal else decimal)
      | _ => none

/-- Spec-side renderer of a dash-separated token (inverse of
`splitOnChar '-'` on dash-free segments), used to quantify over all valid
DMS tokens. -/
def joinSegs : List (List Char) → List Char
  | [] => []
  | [s] => s
  | s :: ss => s ++ '-' :: joinSegs ss

/-- The magnitude the spec promises for a valid DMS token:
`degrees + minutes/60 + seconds/3600`, with missing parts defaulting to 0. -/
def specMagnitude (segs : List (List Char)) : Rat :=
  (digitsVal (segs.getD 0 []) : Rat) + (digitsVal (segs.getD 1 []) : Rat) / 60
    + (digitsVal (segs.getD 2 []) : Rat) / 3600

lemma isWhitespace_eq_false_of_isDigit {c : Char} (h : c.isDigit = true) :
    c.isWhitespace = false := by
  by_cases h1 : c = ' '
  · subst h1; exact absurd h (by decide)
  by_cases h2 : c = '\t'
  · subst h2; exact absurd h (by decide)
  by_cases h3 : c = '\r'
  · subst h3; exact absurd h (by decide)
  by_cases h4 : c = '\n'
  · subst h4; exact absurd h (by decide)
  simp [Char.isWhitespace, h1, h2, h3, h4]

lemma dropWhile_ws_of_digits {cs : List Char} (h : ∀ c ∈ cs, c.isDigit) :
    cs.dropWhile Char.isWhitespace = cs := by
  cases cs with
  | nil => rfl
  | cons c rest =>
    have := isWhitespace_eq_false_of_isDigit (h c (List.mem_cons_self c rest))
    simp [List.dropWhile_cons, this]

lemma pyStrip_digits {cs : List Char} (h : ∀ c ∈ cs, c.isDigit) : pyStrip cs = cs := by
  unfold pyStrip
  rw [dropWhile_ws_of_digits h, dropWhile_ws_of_digits, List.reverse_reverse]
  intro c hc
  exact h c (List.mem_reverse.mp hc)

lemma pyInt_digits {cs : List Char} (h1 : cs ≠ []) (h2 : ∀ c ∈ cs, c.isDigit) :
    pyInt cs = some ((digitsVal cs : Int)) := by
  unfold pyInt
  rw [pyStrip_digits h2]
  cases cs with
  | nil => exact absurd rfl h1
  | cons c rest =>
    have hc : c.isDigit := h2 c (List.mem_cons_self c rest)
    have hcm : c ≠ '-' := by rintro rfl; exact absurd hc (by decide)
    have hcp : c ≠ '+' := by rintro rfl; exact absurd hc (by decide)
    have hall : (c :: rest).all Char.isDigit = true := List.all_eq_true.mpr h2
    simp [hcm, hcp, hall]

lemma splitOnChar_ne_nil (sep : Char) (cs : List Char) : splitOnChar sep cs ≠ [] := by
  induction cs with
  | nil => simp [splitOnChar]
  | cons c rest ih =>
    unfold splitOnChar
    by_cases h : c = sep
    · simp [h]
    · simp only [if_neg h]
      rcases hs : splitOnChar sep rest with _ | ⟨seg, segs⟩
      · simp
      · simp

lemma splitOnChar_no_sep {sep : Char} {s : List Char} (h : sep ∉ s) :
    splitOnChar sep s = [s] := by
  induction s with
  | nil => rfl
  | cons c rest ih =>
    have hc : c ≠ sep := fun hcs => h (hcs ▸ List.mem_cons_self c rest)
    have hrest : sep ∉ rest := fun hm => h (List.mem_cons_of_mem c hm)
    unfold splitOnChar
    rw [if_neg hc, ih hrest]

lemma splitOnChar_append {sep : Char} {s t : List Char} (h : sep ∉ s) :
    splitOnChar sep (s ++ sep :: t) = s :: splitOnChar sep t := by
  induction s with
  | nil => simp [splitOnChar]
  | cons c rest ih =>
    have hc : c ≠ sep := fun hcs => h (hcs ▸ List.mem_cons_self c rest)
    have hrest : sep ∉ rest := fun hm => h (List.mem_cons_of_mem c hm)
    show (if c = sep then [] :: splitOnChar sep (rest ++ sep :: t)
          else match splitOnChar sep (rest ++ sep :: t) with
            | [] => [[c]]
            | seg :: segs => (c :: seg) :: segs) = (c :: rest) :: splitOnChar sep t
    rw [if_neg hc, ih hrest]

lemma splitOnChar_joinSegs {segs : List (List Char)} (hne : segs ≠ [])
    (h : ∀ s ∈ segs, '-' ∉ s) : splitOnChar '-' (joinSegs segs) = segs := by
  induction segs with
  | nil => exact absurd rfl hne
  | cons s rest ih =>
    cases rest with
    | nil =>
      show splitOnChar '-' (joinSegs [s]) = [s]
      rw [show joinSegs [s] = s from rfl]
      exact splitOnChar_no_sep (h s (List.mem_cons_self s []))
    | cons s2 rest2 =>
      show splitOnChar '-' (s ++ '-' :: joinSegs (s2 :: rest2)) = s :: s2 :: rest2
      rw [splitOnChar_append (h s (List.mem_cons_self s _))]
      rw [ih (by simp) (fun x hx => h x (List.mem_cons_of_mem s hx))]

lemma mapOpt_eq_none_iff (f : α → Option β) (l : List α) :
    mapOpt f l = none ↔ ∃ a ∈ l, f a = none := by
  induction l with
  | nil => simp [mapOpt]
  | cons a l ih =>
    unfold mapOpt
    rcases hf : f a with _ | b
    · simp [hf]
    · rcases hm : mapOpt f l with _ | bs
      · simp only [Option.map_none]
        constructor
        · intro _; exact (ih.mp hm).imp (fun x hx => ⟨List.mem_cons_of_mem a hx.1, hx.2⟩)
        · intro _; rfl
      · simp only [Option.map_some]
        constructor
        · intro hc; exact absurd hc (by simp)
        · rintro ⟨x, hx, hfx⟩
          rcases List.mem_cons.mp hx with rfl | hx2
          · rw [hf] at hfx; exact absurd hfx (by simp)
          · have : mapOpt f l = none := (ih.mpr ⟨x, hx2, hfx⟩)
            rw [hm] at this; exact absurd this (by simp)

lemma mapOpt_length {f : α → Option β} {l : List α} {bs : List β}
    (h : mapOpt f l = some bs) : bs.length = l.length := by
  induction l generalizing bs with
  | nil => simp [mapOpt] at h; simp [← h]
  | cons a l ih =>
    unfold mapOpt at h
    rcases hf : f a with _ | b
    · rw [hf] at h; exact absurd h (by simp)
    · rw [hf] at h
      rcases hm : mapOpt f l with _ | bs2
      · rw [hm] at h; exact absurd h (by simp)
      · rw [hm] at h
        simp at h
        rw [← h]
        simp [ih hm]

lemma mapOpt_digits {segs : List (List Char)}
    (h : ∀ s ∈ segs, s ≠ [] ∧ ∀ c ∈ s, c.isDigit) :
    mapOpt pyInt segs = some (segs.map (fun s => (digitsVal s : Int))) := by
  induction segs with
  | nil => rfl
  | cons s rest ih =>
    have hs := h s (List.mem_cons_self s rest)
    unfold mapOpt
    rw [pyInt_digits hs.1 hs.2, ih (fun x hx => h x (List.mem_cons_of_mem s hx))]
    rfl

/-- Claim C5.  For every valid DMS token `<degrees>[-<minutes>[-<seconds>]]<H>`
with digit-string segments and `H` one of N/S/E/W, `dms_to_decimal` returns
the value of magnitude `degrees + minutes/60 + seconds/3600` (missing parts
defaulting to 0), negated exactly for hemisphere S or W. -/
theorem dms_to_decimal_valid (segs : List (List Char)) (h : Char)
    (hlen : segs.length = 1 ∨ segs.length = 2 ∨ segs.length = 3)
    (hseg : ∀ s ∈ segs, s ≠ [] ∧ ∀ c ∈ s, c.isDigit)
    (hh : h = 'N' ∨ h = 'S' ∨ h = 'E' ∨ h = 'W') :
    dms_to_decimal (joinSegs segs ++ [h]) =
      some (if h = 'S' ∨ h = 'W' then -(specMagnitude segs) else specMagnitude segs) := by
  have hne : segs ≠ [] := by
    rcases hlen with h1 | h1 | h1 <;> (intro hc; rw [hc] at h1; simp at h1)
  have hnodash : ∀ s ∈ segs, '-' ∉ s := by
    intro s hs hd
    have := (hseg s hs).2 '-' hd
    exact absurd this (by decide)
  unfold dms_to_decimal
  rw [List.getLast?_concat, List.dropLast_concat, splitOnChar_joinSegs hne hnodash,
    mapOpt_digits hseg]
  rcases segs with _ | ⟨a, _ | ⟨b, _ | ⟨c, _ | ⟨d, rest⟩⟩⟩⟩
  · exact absurd rfl hne
  · simp only [List.map, List.length]
    show (some (if h = 'S' ∨ h = 'W' then _ else _) = _)
    have hmag : ((digitsVal a : Int) : Rat) + ((0 : Int) : Rat) / 60 + ((0 : Int) : Rat) / 3600
        = specMagnitude [a] := by
      unfold specMagnitude
      push_cast
      norm_num [digitsVal]
    rw [hmag]
  · simp only [List.map, List.length]
    show (some (if h = 'S' ∨ h = 'W' then _ else _) = _)
    have hmag : ((digitsVal a : Int) : Rat) + ((digitsVal b : Int) : Rat) / 60
        + ((0 : Int) : Rat) / 3600 = specMagnitude [a, b] := by
      unfold specMagnitude
      push_cast
      norm_num [digitsVal]
    rw [hmag]
  · simp only [List.map, List.length]
    show (some (if h = 'S' ∨ h = 'W' then _ else _) = _)
    have hmag : ((digitsVal a : Int) : Rat) + ((digitsVal b : Int) : Rat) / 60
        + ((digitsVal c : Int) : Rat) / 3600 = specMagnitude [a, b, c] := by
      unfold specMagnitude
      push_cast
      norm_num [digitsVal]
    rw [hmag]
  · rcases hlen with h1 | h1 | h1 <;> simp at h1

/-- Witness for C5 at the concrete token `40-38N`. -/
theorem dms_to_decimal_valid_witness :
    dms_to_decimal (joinSegs [['4', '0'], ['3', '8']] ++ ['N']) =
      some (if ('N' = 'S' ∨ 'N' = 'W') then -(specMagnitude [['4', '0'], ['3', '8']])
            else specMagnitude [['4', '0'], ['3', '8']]) :=
  dms_to_decimal_valid [['4', '0'], ['3', '8']] 'N' (by decide) (by decide) (Or.inl rfl)

lemma mapOpt_some_ne_none {f : α → Option β} {l : List α} {bs : List β}
    (h : mapOpt f l = some bs) : ∀ a ∈ l, f a ≠ none := by
  intro a ha hfa
  have hn := (mapOpt_eq_none_iff f l).mpr ⟨a, ha, hfa⟩
  rw [h] at hn
  exact absurd hn (by simp)

/-- Amended C4.  `dms_to_decimal` fails exactly when the token is empty, when
some segment of the token minus its final character (split on `'-'`) is not an
integer literal, or when there are more than three such segments.  An absent
or invalid hemisphere letter does not by itself raise: the final character is
unconditionally consumed as the hemisphere and only S/W negate. -/
theorem dms_to_decimal_eq_none_iff (dms : List Char) :
    dms_to_decimal dms = none ↔
      dms = [] ∨ (∃ seg ∈ splitOnChar '-' dms.dropLast, pyInt seg = none)
        ∨ 3 < (splitOnChar '-' dms.dropLast).length := by
  rcases hd : dms.getLast? with _ | direction
  · have hnil : dms = [] := List.getLast?_eq_none_iff.mp hd
    subst hnil
    simp [dms_to_decimal]
  · have hne : dms ≠ [] := by
      rintro rfl
      rw [show ([] : List Char).getLast? = none from rfl] at hd
      exact absurd hd (by simp)
    unfold dms_to_decimal
    rw [hd]
    rcases hm : mapOpt pyInt (splitOnChar '-' dms.dropLast) with _ | nums
    · constructor
      · intro _
        exact Or.inr (Or.inl ((mapOpt_eq_none_iff _ _).mp hm))
      · intro _
        rfl
    · have hlen : nums.length = (splitOnChar '-' dms.dropLast).length := mapOpt_length hm
      have hnone : ∀ seg ∈ splitOnChar '-' dms.dropLast, pyInt seg ≠ none :=
        mapOpt_some_ne_none hm
      by_cases h3 : nums.length ≤ 3
      · have hplen : (nums ++ List.replicate (3 - nums.length) (0 : Int)).length = 3 := by
          simp only [List.length_append, List.length_replicate]
          omega
        obtain ⟨x, y, z, hxyz⟩ := List.length_eq_three.mp hplen
        dsimp only
        rw [hxyz]
        constructor
        · intro hc
          simp at hc
        · rintro (hc | ⟨seg, hs, hf⟩ | hc)
          · exact absurd hc hne
          · exact absurd hf (hnone seg hs)
          · omega
      · have hz : 3 - nums.length = 0 := by omega
        dsimp only
        rw [hz]
        rcases nums with _ | ⟨a, _ | ⟨b, _ | ⟨c, _ | ⟨d, rest⟩⟩⟩⟩
        · simp at h3
        · simp at h3
        · simp at h3
        · simp at h3
        · constructor
          · intro _
            refine Or.inr (Or.inr ?_)
            rw [← hlen]
            simp
          · intro _
            rfl

/-- Counterexample to C4 as stated: the token `40X` has an invalid hemisphere
letter, yet `dms_to_decimal` returns a value instead of raising. -/
theorem dms_to_decimal_c4_counterexample :
    ¬('X' = 'N' ∨ 'X' = 'S' ∨ 'X' = 'E' ∨ 'X' = 'W') ∧
      dms_to_decimal ['4', '0', 'X'] = some 40 := by
  constructor
  · decide
  · show dms_to_decimal ['4', '0', 'X'] = some 40
    have h1 : splitOnChar '-' (['4', '0', 'X'] : List Char).dropLast = [['4', '0']] := by decide
    have h2 : mapOpt pyInt [['4', '0']] = some [(40 : Int)] := by
      rw [mapOpt_digits (by decide)]
      decide
    unfold dms_to_decimal
    rw [show (['4', '0', 'X'] : List Char).getLast? = some 'X' from rfl, h1, h2]
    dsimp only
    rw [show ([(40 : Int)]) ++ List.replicate (3 - ([(40 : Int)]).length) (0 : Int)
        = [40, 0, 0] from rfl]
    dsimp only
    rw [if_neg (show ¬('X' = 'S' ∨ 'X' = 'W') by decide)]
    norm_num

/-- Model of Python `int(float)`: truncation toward zero. -/
def pyTrunc (q : Rat) : Int := if 0 ≤ q then ⌊q⌋ else ⌈q⌉

/-- Model of Python `round(float)`: nearest integer, ties to even. -/
def pyRound (q : Rat) : Int :=
  if q - ⌊q⌋ < 1 / 2 then ⌊q⌋
  else if (1 : Rat) / 2 < q - ⌊q⌋ then ⌊q⌋ + 1
  else if ⌊q⌋ % 2 = 0 then ⌊q⌋ else ⌊q⌋ + 1

/-- Model of Python `round(x, 5)` as used on the registry coordinates. -/
def round5 (q : Rat) : Rat := (pyRound (q * 100000) : Rat) / 100000

/-- The 16-point rose of `bearing_to_compass` (both source files). -/
def compass_sectors : List String :=
  ["N", "NNE", "NE", "ENE", "E", "ESE", "SE", "SSE",
   "S", "SSW", "SW", "WSW", "W", "WNW", "NW", "NNW"]

/-- `bearing_to_compass` from the source: `sector_size = 360 / 16`;
`sector_index = int((bearing + sector_size / 2) / sector_size) % 16`; index
into the rose.  (The `%` of Python and of `Int` agree for a positive
modulus, and the index is always in range, so list indexing cannot fail;
`getD` records that with an inert default.) -/
def bearing_to_compass (bearing : Rat) : String :=
  let sector_size : Rat := 360 / 16
  let sector_index : Int := pyTrunc ((bearing + sector_size / 2) / sector_size) % 16
  compass_sectors.getD sector_index.toNat ""

lemma bearing_to_compass_eval (b : Rat) (k : Nat)
    (hk : pyTrunc ((b + (360 / 16 : Rat) / 2) / (360 / 16 : Rat)) % 16 = (k : Int)) :
    bearing_to_compass b = compass_sectors.getD k "" := by
  unfold bearing_to_compass
  dsimp only
  rw [hk]
  simp

/-- Claim C6.  On `[0, 360)` the function returns the rose label at index
`⌊(bearing + 11.25) / 22.5⌋ % 16`; the index is always within the 16-entry
rose (no overflow at the wrap boundary), and the four sample points of the
spec evaluate as promised. -/
theorem bearing_to_compass_spec (b : Rat) (h0 : 0 ≤ b) (h1 : b < 360) :
    (pyTrunc ((b + (360 / 16 : Rat) / 2) / (360 / 16 : Rat)) % 16).toNat
        < compass_sectors.length ∧
      bearing_to_compass b = compass_sectors.getD ((⌊(b + 45 / 4) / (45 / 2)⌋ % 16).toNat) "" ∧
      bearing_to_compass 0 = "N" ∧ bearing_to_compass (3599 / 10) = "N" ∧
      bearing_to_compass 180 = "S" ∧ bearing_to_compass (45 / 2) = "NNE" := by
  refine ⟨?_, ?_, ?_, ?_, ?_, ?_⟩
  · have hnn := Int.emod_nonneg (pyTrunc ((b + (360 / 16 : Rat) / 2) / (360 / 16 : Rat)))
      (show (16 : Int) ≠ 0 by norm_num)
    have hlt := Int.emod_lt_of_pos (pyTrunc ((b + (360 / 16 : Rat) / 2) / (360 / 16 : Rat)))
      (show (0 : Int) < 16 by norm_num)
    show _ < 16
    omega
  · have hq : (0 : Rat) ≤ (b + (360 / 16 : Rat) / 2) / (360 / 16 : Rat) := by
      apply div_nonneg
      · linarith
      · norm_num
    unfold bearing_to_compass pyTrunc
    dsimp only
    rw [if_pos hq]
    norm_num
  · rw [bearing_to_compass_eval 0 0 ?_]
    · rfl
    · unfold pyTrunc
      rw [if_pos (by norm_num)]
      have hf : ⌊((0 : Rat) + (360 / 16 : Rat) / 2) / (360 / 16 : Rat)⌋ = 0 := by
        rw [Int.floor_eq_iff]
        norm_num
      rw [hf]
      decide
  · rw [bearing_to_compass_eval (3599 / 10) 0 ?_]
    · rfl
    · unfold pyTrunc
      rw [if_pos (by norm_num)]
      have hf : ⌊((3599 / 10 : Rat) + (360 / 16 : Rat) / 2) / (360 / 16 : Rat)⌋ = 16 := by
        rw [Int.floor_eq_iff]
        norm_num
      rw [hf]
      decide
  · rw [bearing_to_compass_eval 180 8 ?_]
    · rfl
    · unfold pyTrunc
      rw [if_pos (by norm_num)]
      have hf : ⌊((180 : Rat) + (360 / 16 : Rat) / 2) / (360 / 16 : Rat)⌋ = 8 := by
        rw [Int.floor_eq_iff]
        norm_num
      rw [hf]
      decide
  · rw [bearing_to_compass_eval (45 / 2) 1 ?_]
    · rfl
    · unfold pyTrunc
      rw [if_pos (by norm_num)]
      have hf : ⌊((45 / 2 : Rat) + (360 / 16 : Rat) / 2) / (360 / 16 : Rat)⌋ = 1 := by
        rw [Int.floor_eq_iff]
        norm_num
      rw [hf]
      decide

/-- Witness for C6 at the concrete bearing 180. -/
theorem bearing_to_compass_spec_witness :
    ((0 : Rat) ≤ 180 ∧ (180 : Rat) < 360) ∧
      ((pyTrunc (((180 : Rat) + (360 / 16 : Rat) / 2) / (360 / 16 : Rat)) % 16).toNat
          < compass_sectors.length ∧
        bearing_to_compass 180
            = compass_sectors.getD ((⌊((180 : Rat) + 45 / 4) / (45 / 2)⌋ % 16).toNat) "" ∧
        bearing_to_compass 0 = "N" ∧ bearing_to_compass (3599 / 10) = "N" ∧
        bearing_to_compass 180 = "S" ∧ bearing_to_compass (45 / 2) = "NNE") :=
  ⟨⟨by norm_num, by norm_num⟩, bearing_to_compass_spec 180 (by norm_num) (by norm_num)⟩

/-- The coordinate value type (pydantic Coordinate): a latitude/longitude
pair of decimal degrees. -/
structure Coordinate where
  latitude : Rat
  longitude : Rat
deriving DecidableEq

/-- The `station` dataclass of `llm_sky.__main__`: `name` is a required
constructor argument; `altitude` and `country` default to None. -/
structure station where
  name : String
  coordinate : Coordinate
  altitude : Option Int
  country : Option String
deriving DecidableEq

/-- Python dict assignment `d[k] = v` on an insertion-ordered dict: an
existing key keeps its position and gets the new value; a new key is
appended. -/
def dictInsert {κ β : Type} [DecidableEq κ] (m : List (κ × β)) (k : κ) (v : β) :
    List (κ × β) :=
  if m.any (fun p => p.1 = k) then m.map (fun p => if p.1 = k then (k, v) else p)
  else m ++ [(k, v)]

/-- Python truthiness of a csv.DictReader field value: None (a missing
trailing field, restval) and the empty string are falsy. -/
def truthy : Option (List Char) → Bool
  | none => false
  | some s => !s.isEmpty

/-- One iteration of the record loop in `llm_sky.__main__.stations` for a
single line of the registry feed.  `csv.DictReader` with the explicit
FIELDNAMES tuple is modelled as: split the line on `';'` (the feed is
quote-free), pair the fields positionally with
code/_/_/name/_/country/_/latitude/longitude/_/_/altitude (indices 0, 3, 5,
7, 8, 11), missing trailing fields becoming None; a blank line yields no row
and is skipped.  The kwargs comprehension keeps only truthy raw values, the
`proc` helper strips strings and int-parses the altitude, and the `station`
constructor call fails (TypeError) when the name keyword is absent.
Result: `none` when the iteration raises (aborting the whole parse),
`some none` when the record is skipped, `some (some (code, record))` when a
record is stored. -/
def processLine (line : List Char) : Option (Option (String × station)) :=
  if line.isEmpty then some none
  else
    let fields := splitOnChar ';' line
    if truthy fields[7]? && truthy fields[8]? then
      match dms_to_decimal (fields[7]?.getD []), dms_to_decimal (fields[8]?.getD []) with
      | some latd, some lond =>
        if truthy fields[3]? then
          let countryK : Option String :=
            if truthy fields[5]? then some (String.mk (pyStrip (fields[5]?.getD []))) else none
          let mkRecord : Option Int → station := fun alt =>
            { name := String.mk (pyStrip (fields[3]?.getD []))
              coordinate := { latitude := round5 latd, longitude := round5 lond }
              altitude := alt
              country := countryK }
          if truthy fields[11]? then
            match pyInt (pyStrip (fields[11]?.getD [])) with
            | none => none
            | some alt => some (some (String.mk (fields[0]?.getD []), mkRecord (some alt)))
          else some (some (String.mk (fields[0]?.getD []), mkRecord none))
        else none
      | _, _ => none
    else some none

/-- The loop of `llm_sky.__main__.stations`: records accumulate in a dict in
first-insertion order with last-write-wins; any exception aborts the whole
parse. -/
def stationsAux : List (List Char) → List (String × station) →
    Option (List (String × station))
  | [], result => some result
  | line :: rest, result =>
    match processLine line with
    | none => none
    | some none => stationsAux rest result
    | some (some (code, st)) => stationsAux rest (dictInsert result code st)

/-- `llm_sky.__main__.stations` over the already-line-split registry feed
(the HTTP fetch and `response.text.split('\n')` happen outside the model). -/
def stations (lines : List (List Char)) : Option (List (String × station)) :=
  stationsAux lines []

lemma stationsAux_eq_none {lines : List (List Char)} {line : List Char}
    (hmem : line ∈ lines) (hfail : processLine line = none) :
    ∀ acc, stationsAux lines acc = none := by
  induction lines with
  | nil => cases hmem
  | cons l rest ih =>
    intro acc
    rcases List.mem_cons.mp hmem with rfl | hmem2
    · unfold stationsAux
      rw [hfail]
    · unfold stationsAux
      cases hp : processLine l with
      | none => rfl
      | some o =>
        cases o with
        | none => exact ih hmem2 acc
        | some p => exact ih hmem2 _

lemma mem_dictInsert {κ β : Type} [DecidableEq κ] {m : List (κ × β)} {k : κ} {v : β}
    {p : κ × β} (h : p ∈ dictInsert m k v) : p = (k, v) ∨ p ∈ m := by
  unfold dictInsert at h
  by_cases hc : m.any (fun p => decide (p.1 = k))
  · rw [if_pos hc] at h
    obtain ⟨q, hq, hfq⟩ := List.mem_map.mp h
    by_cases hqk : q.1 = k
    · rw [if_pos hqk] at hfq
      exact Or.inl hfq.symm
    · rw [if_neg hqk] at hfq
      exact Or.inr (hfq ▸ hq)
  · rw [if_neg hc] at h
    rcases List.mem_append.mp h with hm | hm
    · exact Or.inr hm
    · exact Or.inl (List.mem_singleton.mp hm)

lemma stationsAux_mem {lines : List (List Char)} {acc res : List (String × station)}
    {p : String × station} (h : stationsAux lines acc = some res) (hp : p ∈ res) :
    p ∈ acc ∨ ∃ line ∈ lines, processLine line = some (some p) := by
  induction lines generalizing acc with
  | nil =>
    unfold stationsAux at h
    obtain rfl : acc = res := by injection h
    exact Or.inl hp
  | cons l rest ih =>
    unfold stationsAux at h
    cases hpl : processLine l with
    | none =>
      rw [hpl] at h
      exact absurd h (by simp)
    | some o =>
      rw [hpl] at h
      cases o with
      | none =>
        rcases ih h with hacc | ⟨line, hl, he⟩
        · exact Or.inl hacc
        · exact Or.inr ⟨line, List.mem_cons_of_mem _ hl, he⟩
      | some ps =>
        rcases ih h with hacc | ⟨line, hl, he⟩
        · rcases mem_dictInsert hacc with rfl | hacc2
          · exact Or.inr ⟨l, List.mem_cons_self _ _, by rw [hpl]⟩
          · exact Or.inl hacc2
        · exact Or.inr ⟨line, List.mem_cons_of_mem _ hl, he⟩

lemma processLine_fields {line : List Char} {code : String} {st : station}
    (h : processLine line = some (some (code, st))) :
    st.name = String.mk (pyStrip ((splitOnChar ';' line)[3]?.getD []))
      ∧ truthy (splitOnChar ';' line)[3]? = true
      ∧ st.country = (if truthy (splitOnChar ';' line)[5]?
          then some (String.mk (pyStrip ((splitOnChar ';' line)[5]?.getD []))) else none)
      ∧ st.altitude = (if truthy (splitOnChar ';' line)[11]?
          then pyInt (pyStrip ((splitOnChar ';' line)[11]?.getD [])) else none) := by
  unfold processLine at h
  by_cases h0 : line.isEmpty
  · rw [if_pos h0] at h
    exact absurd h (by simp)
  · rw [if_neg h0] at h
    dsimp only at h
    by_cases h1 : (truthy (splitOnChar ';' line)[7]? && truthy (splitOnChar ';' line)[8]?) = true
    · rw [if_pos h1] at h
      cases hlat : dms_to_decimal ((splitOnChar ';' line)[7]?.getD []) with
      | none =>
        rw [hlat] at h
        exact absurd h (by simp)
      | some latd =>
        cases hlon : dms_to_decimal ((splitOnChar ';' line)[8]?.getD []) with
        | none =>
          rw [hlat, hlon] at h
          exact absurd h (by simp)
        | some lond =>
          rw [hlat, hlon] at h
          dsimp only at h
          by_cases h3 : truthy (splitOnChar ';' line)[3]? = true
          · rw [if_pos h3] at h
            by_cases h11 : truthy (splitOnChar ';' line)[11]? = true
            · rw [if_pos h11] at h
              cases halt : pyInt (pyStrip ((splitOnChar ';' line)[11]?.getD [])) with
              | none =>
                rw [halt] at h
                exact absurd h (by simp)
              | some alt =>
                rw [halt] at h
                simp only [Option.some.injEq, Prod.mk.injEq] at h
                obtain ⟨hcode, hst⟩ := h
                rw [← hst]
                refine ⟨rfl, h3, ?_, ?_⟩
                · rfl
                · simp [h11, halt]
            · rw [if_neg h11] at h
              simp only [Option.some.injEq, Prod.mk.injEq] at h
              obtain ⟨hcode, hst⟩ := h
              rw [← hst]
              refine ⟨rfl, h3, rfl, ?_⟩
              rw [if_neg h11]
          · rw [if_neg h3] at h
            exact absurd h (by simp)
    · rw [if_neg h1] at h
      exact absurd h (by simp)

/-- Counterexample to C2 as stated: a registry whose first record has
non-empty latitude and longitude fields with an unparseable latitude token;
`stations` raises (returns no mapping at all) instead of skipping that one
record and completing the parse of the remaining well-formed record. -/
theorem stations_abort_counterexample :
    truthy (splitOnChar ';' "AAAA;;;Alpha;;US;;4X-38N;073-47W;;;".data)[7]? = true ∧
      truthy (splitOnChar ';' "AAAA;;;Alpha;;US;;4X-38N;073-47W;;;".data)[8]? = true ∧
      dms_to_decimal ((splitOnChar ';' "AAAA;;;Alpha;;US;;4X-38N;073-47W;;;".data)[7]?.getD [])
        = none ∧
      stations ["AAAA;;;Alpha;;US;;4X-38N;073-47W;;;".data,
        "BBBB;;;Beta;;US;;40-38N;073-47W;;;100".data] = none := by
  refine ⟨by decide, by decide, by decide, by decide⟩

/-- Amended C2.  A record whose latitude and longitude fields are both
non-empty but where DMS conversion of either field fails makes the whole
parse fail: the ValueError propagates out of `stations`, no mapping is
returned, and the remaining records are not parsed.  (Only records with an
empty or missing latitude or longitude field are skipped.) -/
theorem stations_aborts_on_bad_coordinate (lines : List (List Char)) (line : List Char)
    (hmem : line ∈ lines) (hne : line.isEmpty = false)
    (hlat : truthy (splitOnChar ';' line)[7]? = true)
    (hlon : truthy (splitOnChar ';' line)[8]? = true)
    (hdms : dms_to_decimal ((splitOnChar ';' line)[7]?.getD []) = none
      ∨ dms_to_decimal ((splitOnChar ';' line)[8]?.getD []) = none) :
    stations lines = none := by
  apply stationsAux_eq_none hmem _ []
  unfold processLine
  rw [if_neg (by rw [hne]; exact Bool.false_ne_true)]
  dsimp only
  rw [if_pos (by rw [hlat, hlon]; rfl)]
  cases hl7 : dms_to_decimal ((splitOnChar ';' line)[7]?.getD []) with
  | none => rfl
  | some latd =>
    cases hl8 : dms_to_decimal ((splitOnChar ';' line)[8]?.getD []) with
    | none => rfl
    | some lond =>
      rcases hdms with hbad | hbad
      · rw [hl7] at hbad
        exact absurd hbad (by simp)
      · rw [hl8] at hbad
        exact absurd hbad (by simp)

/-- Witness for the amended C2 at a concrete two-line registry. -/
theorem stations_aborts_on_bad_coordinate_witness :
    stations ["BBBB;;;Beta;;US;;40-38N;073-47W;;;100".data,
      "AAAA;;;Alpha;;US;;4X-38N;073-47W;;;".data] = none :=
  stations_aborts_on_bad_coordinate _ "AAAA;;;Alpha;;US;;4X-38N;073-47W;;;".data
    (by decide) (by decide) (by decide) (by decide) (Or.inl (by decide))

/-- Counterexample to C9 as stated: a record whose country field is a single
space (blank but non-empty) is stored with `country = some ""` — the
stripped-to-empty string — rather than with the field absent. -/
theorem stations_blank_field_counterexample :
    (splitOnChar ';' "CCCC;;;Gamma;; ;;40-38N;073-47W;;;".data)[5]?.getD [] = [' '] ∧
      pyStrip [' '] = [] ∧
      (stations ["CCCC;;;Gamma;; ;;40-38N;073-47W;;;".data]).map
          (fun res => res.map (fun p => (p.1, p.2.name, p.2.country, p.2.altitude)))
        = some [("CCCC", "Gamma", some "", none)] :=
  ⟨by decide, by decide, by decide⟩

/-- Amended C9.  For every record stored by the registry parser: an optional
string field (name, country) is omitted exactly when its source text is
empty or missing; a whitespace-only (blank but non-empty) field passes the
truthiness filter and is stored as its stripped value, the empty string; a
non-empty altitude field is stored as its parsed integer value.  (The name
is a required constructor argument, so a record with an empty name field
would in fact abort the parse rather than be stored.) -/
theorem stations_optional_fields (lines : List (List Char))
    (res : List (String × station)) (code : String) (st : station)
    (hres : stations lines = some res) (hmem : (code, st) ∈ res) :
    ∃ line ∈ lines,
      st.name = String.mk (pyStrip ((splitOnChar ';' line)[3]?.getD []))
        ∧ truthy (splitOnChar ';' line)[3]? = true
        ∧ st.country = (if truthy (splitOnChar ';' line)[5]?
            then some (String.mk (pyStrip ((splitOnChar ';' line)[5]?.getD []))) else none)
        ∧ st.altitude = (if truthy (splitOnChar ';' line)[11]?
            then pyInt (pyStrip ((splitOnChar ';' line)[11]?.getD [])) else none) := by
  rcases stationsAux_mem hres hmem with hacc | ⟨line, hl, he⟩
  · cases hacc
  · exact ⟨line, hl, processLine_fields he⟩

/-- Helper pair naming the single record parsed from the witness line of
the amended C9. -/
def c9row : String × station :=
  ((stations ["CCCC;;;Gamma;; ;;40-38N;073-47W;;;".data]).getD []).headD
    ("", { name := "", coordinate := { latitude := 0, longitude := 0 },
           altitude := none, country := none })

/-- Witness for the amended C9 at a concrete one-line registry. -/
theorem stations_optional_fields_witness :
    ∃ line ∈ ["CCCC;;;Gamma;; ;;40-38N;073-47W;;;".data],
      c9row.2.name = String.mk (pyStrip ((splitOnChar ';' line)[3]?.getD []))
        ∧ truthy (splitOnChar ';' line)[3]? = true
        ∧ c9row.2.country = (if truthy (splitOnChar ';' line)[5]?
            then some (String.mk (pyStrip ((splitOnChar ';' line)[5]?.getD []))) else none)
        ∧ c9row.2.altitude = (if truthy (splitOnChar ';' line)[11]?
            then pyInt (pyStrip ((splitOnChar ';' line)[11]?.getD [])) else none) :=
  stations_optional_fields ["CCCC;;;Gamma;; ;;40-38N;073-47W;;;".data]
    ((stations ["CCCC;;;Gamma;; ;;40-38N;073-47W;;;".data]).getD [])
    c9row.1 c9row.2 rfl (List.Mem.head _)

/-- The annotation label built by `metar_nearby` for one candidate:
`f'{station.name}: {round(distance)}km {compass} {round(abs(delta).total_seconds() / 60)}m ago'`. -/
def label (st : station) (distance : Rat) (compass : String) (delta : Rat) : String :=
  st.name ++ ": " ++ toString (pyRound distance) ++ "km " ++ compass ++ " "
    ++ toString (pyRound (|delta| / 60)) ++ "m ago"

/-- Phase 1 of `llm_sky.metar_nearby`: walk the registry in order keeping
every station whose haversine distance from the query point is at most
`max_distance`, paired with that distance.  The float-valued geodesy
collaborators (`haversine`, `bearing`) enter the aggregator as the function
parameters `hav` and `bear`; the per-station report fetch `metar` is `fetch`
(returning the report timestamp in seconds and the body, `none` for any
exception), and `datetime.now` is `now`. -/
def candidates (hav : Rat → Rat → Rat → Rat → Rat) (STATIONS : List (String × station))
    (latitude longitude max_distance : Rat) : List (String × station × Rat) :=
  STATIONS.filterMap fun cs =>
    let distance := hav latitude longitude cs.2.coordinate.latitude cs.2.coordinate.longitude
    if distance ≤ max_distance then some (cs.1, cs.2, distance) else none

/-- The sort key of `distances.sort(key=lambda x: x[2])`: compare candidates
by their distance component. -/
def distLE (a b : String × station × Rat) : Prop := a.2.2 ≤ b.2.2

instance : DecidableRel distLE := fun a b => inferInstanceAs (Decidable (a.2.2 ≤ b.2.2))

instance : IsTotal (String × station × Rat) distLE := ⟨fun a b => le_total a.2.2 b.2.2⟩

instance : IsTrans (String × station × Rat) distLE := ⟨fun _ _ _ h1 h2 => le_trans h1 h2⟩

/-- Phase 2 of `llm_sky.metar_nearby`: `list.sort` is a stable sort, modelled
by insertion sort on the distance key. -/
def sortedCandidates (hav : Rat → Rat → Rat → Rat → Rat) (STATIONS : List (String × station))
    (latitude longitude max_distance : Rat) : List (String × station × Rat) :=
  List.insertionSort distLE (candidates hav STATIONS latitude longitude max_distance)

/-- The body of the per-candidate loop of `llm_sky.metar_nearby` (the whole
body sits in a bare try/except): compute the compass label, fetch the report
(any failure gives `none`), form `delta = report_time - now`, and keep the
candidate only when `delta.total_seconds() >= -max_seconds_ago`. -/
def emit (bear : Rat → Rat → Rat → Rat → Rat) (fetch : String → Option (Rat × String))
    (now latitude longitude : Rat) (max_seconds_ago : Int)
    (cst : String × station × Rat) : Option (String × String) :=
  match fetch cst.1 with
  | none => none
  | some tr =>
    let compass := bearing_to_compass
      (bear latitude longitude cst.2.1.coordinate.latitude cst.2.1.coordinate.longitude)
    let delta := tr.1 - now
    if -(max_seconds_ago : Rat) ≤ delta then
      some (label cst.2.1 cst.2.2 compass delta, tr.2)
    else none

/-- Accumulation of the emitted label/report pairs into the insertion-ordered
result dict of `metar_nearby`. -/
def buildDict (kvs : List (String × String)) : List (String × String) :=
  kvs.foldl (fun result kv => dictInsert result kv.1 kv.2) []

/-- `llm_sky.metar_nearby`: filter the registry by distance, sort stably by
distance, and fold the per-candidate loop over the sorted candidates into
the result dict. -/
def metar_nearby (hav bear : Rat → Rat → Rat → Rat → Rat)
    (fetch : String → Option (Rat × String)) (now : Rat)
    (STATIONS : List (String × station)) (latitude longitude : Rat)
    (max_distance : Rat) (max_seconds_ago : Int) : List (String × String) :=
  (sortedCandidates hav STATIONS latitude longitude max_distance).foldl
    (fun result cst =>
      match emit bear fetch now latitude longitude max_seconds_ago cst with
      | none => result
      | some kv => dictInsert result kv.1 kv.2) []

lemma foldl_emit_eq (bear : Rat → Rat → Rat → Rat → Rat)
    (fetch : String → Option (Rat × String)) (now latitude longitude : Rat)
    (max_seconds_ago : Int) (l : List (String × station × Rat))
    (acc : List (String × String)) :
    l.foldl (fun result cst =>
        match emit bear fetch now latitude longitude max_seconds_ago cst with
        | none => result
        | some kv => dictInsert result kv.1 kv.2) acc
      = (l.filterMap (emit bear fetch now latitude longitude max_seconds_ago)).foldl
          (fun result kv => dictInsert result kv.1 kv.2) acc := by
  induction l generalizing acc with
  | nil => rfl
  | cons c rest ih =>
    rw [List.foldl_cons, List.filterMap_cons]
    cases he : emit bear fetch now latitude longitude max_seconds_ago c with
    | none => rw [ih]
    | some kv =>
      rw [List.foldl_cons, ih]

lemma metar_nearby_eq_buildDict (hav bear : Rat → Rat → Rat → Rat → Rat)
    (fetch : String → Option (Rat × String)) (now : Rat)
    (STATIONS : List (String × station)) (latitude longitude : Rat)
    (max_distance : Rat) (max_seconds_ago : Int) :
    metar_nearby hav bear fetch now STATIONS latitude longitude max_distance max_seconds_ago
      = buildDict ((sortedCandidates hav STATIONS latitude longitude max_distance).filterMap
          (emit bear fetch now latitude longitude max_seconds_ago)) := by
  unfold metar_nearby buildDict
  exact foldl_emit_eq bear fetch now latitude longitude max_seconds_ago _ []

lemma filter_orderedInsert_key (q : Rat) (a : String × station × Rat)
    (s : List (String × station × Rat)) :
    (List.orderedInsert distLE a s).filter (fun c => decide (c.2.2 = q))
      = if a.2.2 = q then a :: s.filter (fun c => decide (c.2.2 = q))
        else s.filter (fun c => decide (c.2.2 = q)) := by
  induction s with
  | nil =>
    by_cases h : a.2.2 = q <;> simp [List.orderedInsert, List.filter, h]
  | cons b t ih =>
    unfold List.orderedInsert
    by_cases hab : distLE a b
    · rw [if_pos hab]
      by_cases ha : a.2.2 = q <;> simp [List.filter_cons, ha]
    · rw [if_neg hab]
      have hb : ¬(a.2.2 ≤ b.2.2) := hab
      by_cases ha : a.2.2 = q
      · have hbq : b.2.2 ≠ q := by
          intro hq
          exact hb (le_of_eq (ha.trans hq.symm))
        simp [List.filter_cons, hbq, ih, ha]
      · by_cases hbq : b.2.2 = q <;> simp [List.filter_cons, hbq, ih, ha]

lemma filter_insertionSort_key (q : Rat) (l : List (String × station × Rat)) :
    (List.insertionSort distLE l).filter (fun c => decide (c.2.2 = q))
      = l.filter (fun c => decide (c.2.2 = q)) := by
  induction l with
  | nil => rfl
  | cons a t ih =>
    rw [List.insertionSort, filter_orderedInsert_key, ih]
    by_cases ha : a.2.2 = q <;> simp [List.filter_cons, ha]

/-- Claim C7.  The candidate set of the proximity aggregator consists of
exactly the registry stations within `max_distance` of the query point
(first conjunct), the processing order is ascending by distance (second
conjunct), ties keep the original registry order — the sort is stable, so
for every distance value the candidates at that distance appear exactly as
in the registry-ordered candidate list (third conjunct) — and the result is
the dict built by emitting the candidates in exactly that sorted order
(fourth conjunct). -/
theorem metar_nearby_candidates_sorted (hav bear : Rat → Rat → Rat → Rat → Rat)
    (fetch : String → Option (Rat × String)) (now : Rat)
    (STATIONS : List (String × station)) (latitude longitude max_distance : Rat)
    (max_seconds_ago : Int) :
    (∀ c : String × station × Rat,
        c ∈ candidates hav STATIONS latitude longitude max_distance ↔
          ((c.1, c.2.1) ∈ STATIONS
            ∧ c.2.2 = hav latitude longitude c.2.1.coordinate.latitude
                c.2.1.coordinate.longitude
            ∧ c.2.2 ≤ max_distance))
      ∧ (sortedCandidates hav STATIONS latitude longitude max_distance).Pairwise distLE
      ∧ (∀ q : Rat,
          (sortedCandidates hav STATIONS latitude longitude max_distance).filter
              (fun c => decide (c.2.2 = q))
            = (candidates hav STATIONS latitude longitude max_distance).filter
              (fun c => decide (c.2.2 = q)))
      ∧ metar_nearby hav bear fetch now STATIONS latitude longitude max_distance
            max_seconds_ago
          = buildDict ((sortedCandidates hav STATIONS latitude longitude
              max_distance).filterMap
              (emit bear fetch now latitude longitude max_seconds_ago)) := by
  refine ⟨?_, List.sorted_insertionSort distLE _, fun q => filter_insertionSort_key q _,
    metar_nearby_eq_buildDict hav bear fetch now STATIONS latitude longitude max_distance
      max_seconds_ago⟩
  intro c
  unfold candidates
  constructor
  · intro hc
    obtain ⟨a, ha, hfa⟩ := List.mem_filterMap.mp hc
    dsimp only at hfa
    by_cases hle : hav latitude longitude a.2.coordinate.latitude a.2.coordinate.longitude
        ≤ max_distance
    · rw [if_pos hle] at hfa
      obtain rfl : (a.1, a.2, hav latitude longitude a.2.coordinate.latitude
          a.2.coordinate.longitude) = c := by
        injection hfa
      exact ⟨by simpa using ha, rfl, hle⟩
    · rw [if_neg hle] at hfa
      exact absurd hfa (by simp)
  · rintro ⟨hmem, heq, hle⟩
    apply List.mem_filterMap.mpr
    refine ⟨(c.1, c.2.1), hmem, ?_⟩
    dsimp only
    rw [← heq, if_pos hle]

/-- Claim C3.  A candidate whose report fetch (or report parsing) raises is
silently dropped: the aggregator's result is exactly the one obtained by
emitting all the other sorted candidates, so processing continues and no
per-candidate error ever escapes `metar_nearby`. -/
theorem metar_nearby_skips_failed_fetch (hav bear : Rat → Rat → Rat → Rat → Rat)
    (fetch : String → Option (Rat × String)) (now : Rat)
    (STATIONS : List (String × station)) (latitude longitude max_distance : Rat)
    (max_seconds_ago : Int) (pre post : List (String × station × Rat))
    (c : String × station × Rat)
    (hs : sortedCandidates hav STATIONS latitude longitude max_distance = pre ++ c :: post)
    (hf : fetch c.1 = none) :
    metar_nearby hav bear fetch now STATIONS latitude longitude max_distance max_seconds_ago
      = buildDict ((pre ++ post).filterMap
          (emit bear fetch now latitude longitude max_seconds_ago)) := by
  rw [metar_nearby_eq_buildDict, hs]
  have he : emit bear fetch now latitude longitude max_seconds_ago c = none := by
    unfold emit
    rw [hf]
  rw [List.filterMap_append, List.filterMap_cons, he]
  dsimp only
  rw [← List.filterMap_append]

/-- Claim C8.  A candidate within `max_distance` whose fetched report is
older than `max_seconds_ago` (now minus the report time exceeds the
threshold) is excluded: the result is exactly the one obtained from the
other sorted candidates. -/
theorem metar_nearby_excludes_stale (hav bear : Rat → Rat → Rat → Rat → Rat)
    (fetch : String → Option (Rat × String)) (now : Rat)
    (STATIONS : List (String × station)) (latitude longitude max_distance : Rat)
    (max_seconds_ago : Int) (pre post : List (String × station × Rat))
    (c : String × station × Rat) (t : Rat) (r : String)
    (hs : sortedCandidates hav STATIONS latitude longitude max_distance = pre ++ c :: post)
    (hf : fetch c.1 = some (t, r))
    (hstale : ((max_seconds_ago : Int) : Rat) < now - t) :
    metar_nearby hav bear fetch now STATIONS latitude longitude max_distance max_seconds_ago
      = buildDict ((pre ++ post).filterMap
          (emit bear fetch now latitude longitude max_seconds_ago)) := by
  rw [metar_nearby_eq_buildDict, hs]
  have he : emit bear fetch now latitude longitude max_seconds_ago c = none := by
    unfold emit
    rw [hf]
    dsimp only
    rw [if_neg (by intro hcon; linarith)]
  rw [List.filterMap_append, List.filterMap_cons, he]
  dsimp only
  rw [← List.filterMap_append]

/-- Amended C1.  A candidate whose fetch succeeds is included only if the
signed delta `report_time - now` (the `delta` of the source, whose
`total_seconds()` is compared against `-max_seconds_ago`) satisfies
`delta >= -max_seconds_ago`; stated contrapositively, when
`report_time - now < -max_seconds_ago` the candidate is excluded.  The
spec's formula inverts the delta: the code compares `report_time - now`,
not `now - report_time`, against `-max_seconds_ago`. -/
theorem metar_nearby_requires_fresh_delta (hav bear : Rat → Rat → Rat → Rat → Rat)
    (fetch : String → Option (Rat × String)) (now : Rat)
    (STATIONS : List (String × station)) (latitude longitude max_distance : Rat)
    (max_seconds_ago : Int) (pre post : List (String × station × Rat))
    (c : String × station × Rat) (t : Rat) (r : String)
    (hs : sortedCandidates hav STATIONS latitude longitude max_distance = pre ++ c :: post)
    (hf : fetch c.1 = some (t, r))
    (hd : t - now < -((max_seconds_ago : Int) : Rat)) :
    metar_nearby hav bear fetch now STATIONS latitude longitude max_distance max_seconds_ago
      = buildDict ((pre ++ post).filterMap
          (emit bear fetch now latitude longitude max_seconds_ago)) := by
  rw [metar_nearby_eq_buildDict, hs]
  have he : emit bear fetch now latitude longitude max_seconds_ago c = none := by
    unfold emit
    rw [hf]
    dsimp only
    rw [if_neg (by intro hcon; linarith)]
  rw [List.filterMap_append, List.filterMap_cons, he]
  dsimp only
  rw [← List.filterMap_append]

/-- A degenerate distance/bearing collaborator used in concrete witnesses:
every geodesy value is 0. -/
def zeroFn : Rat → Rat → Rat → Rat → Rat := fun _ _ _ _ => 0

/-- Concrete witness station X at the origin. -/
def stX : station :=
  { name := "X", coordinate := { latitude := 0, longitude := 0 },
    altitude := none, country := none }

/-- Concrete witness station Y at the origin. -/
def stY : station :=
  { name := "Y", coordinate := { latitude := 0, longitude := 0 },
    altitude := none, country := none }

/-- A fetch collaborator that fails for station XXXX and succeeds with a
report of timestamp 0 for every other station. -/
def fetchFailX : String → Option (Rat × String) :=
  fun c => if c = "XXXX" then none else some (0, "OK")

/-- A fetch collaborator that always returns a report with timestamp `t`. -/
def fetchAt (t : Rat) : String → Option (Rat × String) := fun _ => some (t, "RPT")

lemma candidates_cons_le (hav : Rat → Rat → Rat → Rat → Rat)
    (latitude longitude max_distance : Rat) (code : String) (st : station)
    (rest : List (String × station))
    (h : hav latitude longitude st.coordinate.latitude st.coordinate.longitude
      ≤ max_distance) :
    candidates hav ((code, st) :: rest) latitude longitude max_distance
      = (code, st, hav latitude longitude st.coordinate.latitude st.coordinate.longitude)
          :: candidates hav rest latitude longitude max_distance := by
  unfold candidates
  rw [List.filterMap_cons]
  dsimp only
  rw [if_pos h]

lemma candidates_nil (hav : Rat → Rat → Rat → Rat → Rat)
    (latitude longitude max_distance : Rat) :
    candidates hav [] latitude longitude max_distance = [] := rfl

lemma sortedCandidates_oneZero :
    sortedCandidates zeroFn [("XXXX", stX)] 0 0 100 = [("XXXX", stX, 0)] := by
  unfold sortedCandidates
  rw [candidates_cons_le zeroFn 0 0 100 "XXXX" stX [] (by norm_num [zeroFn]), candidates_nil]
  simp [zeroFn, List.insertionSort, List.orderedInsert]

lemma sortedCandidates_twoZero :
    sortedCandidates zeroFn [("XXXX", stX), ("YYYY", stY)] 0 0 100
      = [("XXXX", stX, 0), ("YYYY", stY, 0)] := by
  unfold sortedCandidates
  rw [candidates_cons_le zeroFn 0 0 100 "XXXX" stX _ (by norm_num [zeroFn]),
    candidates_cons_le zeroFn 0 0 100 "YYYY" stY [] (by norm_num [zeroFn]), candidates_nil]
  simp only [zeroFn]
  simp [List.insertionSort, List.orderedInsert, distLE]

lemma buildDict_singleton (k v : String) : buildDict [(k, v)] = [(k, v)] := by
  unfold buildDict dictInsert
  simp

/-- Witness for C3: with two equidistant stations and a fetch that fails for
the first one, the aggregator returns exactly the dict built from the second
candidate alone. -/
theorem metar_nearby_skips_failed_fetch_witness :
    (sortedCandidates zeroFn [("XXXX", stX), ("YYYY", stY)] 0 0 100
        = [] ++ ("XXXX", stX, 0) :: [("YYYY", stY, 0)])
      ∧ fetchFailX "XXXX" = none
      ∧ metar_nearby zeroFn zeroFn fetchFailX 0 [("XXXX", stX), ("YYYY", stY)] 0 0 100 7200
          = buildDict (([] ++ [("YYYY", stY, (0 : Rat))]).filterMap
              (emit zeroFn fetchFailX 0 0 0 7200)) := by
  have hs : sortedCandidates zeroFn [("XXXX", stX), ("YYYY", stY)] 0 0 100
      = [] ++ ("XXXX", stX, 0) :: [("YYYY", stY, 0)] := by
    rw [sortedCandidates_twoZero]
    rfl
  exact ⟨hs, rfl, metar_nearby_skips_failed_fetch zeroFn zeroFn fetchFailX 0
    [("XXXX", stX), ("YYYY", stY)] 0 0 100 7200 [] [("YYYY", stY, 0)]
    ("XXXX", stX, 0) hs rfl⟩

/-- Witness for C8: a single candidate whose report is 10000 seconds old
against a 7200-second threshold is excluded. -/
theorem metar_nearby_excludes_stale_witness :
    (sortedCandidates zeroFn [("XXXX", stX)] 0 0 100 = [] ++ ("XXXX", stX, 0) :: [])
      ∧ fetchAt (-10000) "XXXX" = some (-10000, "RPT")
      ∧ (((7200 : Int) : Rat) < 0 - (-10000))
      ∧ metar_nearby zeroFn zeroFn (fetchAt (-10000)) 0 [("XXXX", stX)] 0 0 100 7200
          = buildDict (([] ++ []).filterMap (emit zeroFn (fetchAt (-10000)) 0 0 0 7200)) := by
  have hs : sortedCandidates zeroFn [("XXXX", stX)] 0 0 100
      = [] ++ ("XXXX", stX, 0) :: [] := by
    rw [sortedCandidates_oneZero]
    rfl
  exact ⟨hs, rfl, by norm_num, metar_nearby_excludes_stale zeroFn zeroFn (fetchAt (-10000)) 0
    [("XXXX", stX)] 0 0 100 7200 [] [] ("XXXX", stX, 0) (-10000) "RPT" hs rfl (by norm_num)⟩

/-- Witness for the amended C1: a single candidate whose report timestamp is
9000 seconds in the past against a 3600-second threshold has
`report_time - now < -max_seconds_ago` and is excluded. -/
theorem metar_nearby_requires_fresh_delta_witness :
    (sortedCandidates zeroFn [("YYYY", stY)] 0 0 100 = [] ++ ("YYYY", stY, 0) :: [])
      ∧ fetchAt (-9000) "YYYY" = some (-9000, "RPT")
      ∧ ((-9000 : Rat) - 0 < -((3600 : Int) : Rat))
      ∧ metar_nearby zeroFn zeroFn (fetchAt (-9000)) 0 [("YYYY", stY)] 0 0 100 3600
          = buildDict (([] ++ []).filterMap (emit zeroFn (fetchAt (-9000)) 0 0 0 3600)) := by
  have hs : sortedCandidates zeroFn [("YYYY", stY)] 0 0 100
      = [] ++ ("YYYY", stY, 0) :: [] := by
    unfold sortedCandidates
    rw [candidates_cons_le zeroFn 0 0 100 "YYYY" stY [] (by norm_num [zeroFn]), candidates_nil]
    simp [zeroFn, List.insertionSort, List.orderedInsert]
  exact ⟨hs, rfl, by norm_num, metar_nearby_requires_fresh_delta zeroFn zeroFn (fetchAt (-9000))
    0 [("YYYY", stY)] 0 0 100 3600 [] [] ("YYYY", stY, 0) (-9000) "RPT" hs rfl (by norm_num)⟩

/-- Counterexample to C1 as stated: with `now = 0` a report whose timestamp
is 10000 seconds in the future has spec-delta `now - report_time = -10000`,
violating the spec's inclusion condition `delta_seconds >= -7200` — yet the
aggregator does include the candidate (the result has one entry).  The code
compares `report_time - now`, not `now - report_time`. -/
theorem metar_nearby_c1_counterexample :
    fetchAt 10000 "XXXX" = some (10000, "RPT")
      ∧ ¬((0 : Rat) - 10000 ≥ -((7200 : Int) : Rat))
      ∧ (metar_nearby zeroFn zeroFn (fetchAt 10000) 0 [("XXXX", stX)] 0 0 100 7200).length
          = 1 := by
  refine ⟨rfl, by norm_num, ?_⟩
  rw [metar_nearby_eq_buildDict, sortedCandidates_oneZero]
  have he : emit zeroFn (fetchAt 10000) 0 0 0 7200 ("XXXX", stX, 0)
      = some (label stX 0
          (bearing_to_compass (zeroFn 0 0 stX.coordinate.latitude stX.coordinate.longitude))
          ((10000 : Rat) - 0), "RPT") := by
    unfold emit fetchAt
    dsimp only
    rw [if_pos (by norm_num)]
  have hfm : List.filterMap (emit zeroFn (fetchAt 10000) 0 0 0 7200) [("XXXX", stX, 0)]
      = [(label stX 0
          (bearing_to_compass (zeroFn 0 0 stX.coordinate.latitude stX.coordinate.longitude))
          ((10000 : Rat) - 0), "RPT")] := by
    rw [List.filterMap_cons, he]
    rfl
  rw [hfm, buildDict_singleton]
  rfl

/-- `math.radians`: degrees to radians. -/
noncomputable def radians (x : ℝ) : ℝ := x * Real.pi / 180

/-- `math.atan2` over the reals with the usual quadrant convention; only the
first-quadrant branches are reachable from `haversine`, whose two arguments
are square roots. -/
noncomputable def atan2 (y x : ℝ) : ℝ :=
  if 0 < x then Real.arctan (y / x)
  else if x < 0 ∧ 0 ≤ y then Real.arctan (y / x) + Real.pi
  else if x < 0 ∧ y < 0 then Real.arctan (y / x) - Real.pi
  else if x = 0 ∧ 0 < y then Real.pi / 2
  else if x = 0 ∧ y < 0 then -(Real.pi / 2)
  else 0

/-- The intermediate value `a` of `llm_sky.haversine`:
`sin(dlat/2)**2 + cos(radians(lat1)) * cos(radians(lat2)) * sin(dlon/2)**2`,
factored out of `haversine` so the totality claim can name it. -/
noncomputable def hav_a (lat1 lon1 lat2 lon2 : ℝ) : ℝ :=
  Real.sin (radians (lat2 - lat1) / 2) ^ 2
    + Real.cos (radians lat1) * Real.cos (radians lat2)
        * Real.sin (radians (lon2 - lon1) / 2) ^ 2

/-- `llm_sky.haversine` (identical in both source files): Earth radius
`R = 6371` km and `c = 2 * atan2(sqrt(a), sqrt(1 - a))`. -/
noncomputable def haversine (lat1 lon1 lat2 lon2 : ℝ) : ℝ :=
  let R : ℝ := 6371
  let a := hav_a lat1 lon1 lat2 lon2
  let c := 2 * atan2 (Real.sqrt a) (Real.sqrt (1 - a))
  R * c

lemma arctan_nonneg_of_nonneg {t : ℝ} (h : 0 ≤ t) : 0 ≤ Real.arctan t := by
  have := Real.arctan_strictMono.monotone h
  rwa [Real.arctan_zero] at this

lemma atan2_nonneg_le {y x : ℝ} (hy : 0 ≤ y) (hx : 0 ≤ x) :
    0 ≤ atan2 y x ∧ atan2 y x ≤ Real.pi / 2 := by
  unfold atan2
  by_cases h1 : 0 < x
  · rw [if_pos h1]
    exact ⟨arctan_nonneg_of_nonneg (div_nonneg hy (le_of_lt h1)),
      le_of_lt (Real.arctan_lt_pi_div_two _)⟩
  · have hx0 : x = 0 := le_antisymm (not_lt.mp h1) hx
    rw [if_neg h1, if_neg (by rintro ⟨hlt, _⟩; linarith),
      if_neg (by rintro ⟨hlt, _⟩; linarith)]
    by_cases h2 : 0 < y
    · rw [if_pos ⟨hx0, h2⟩]
      exact ⟨by linarith [Real.pi_pos], le_refl _⟩
    · rw [if_neg (by rintro ⟨_, hy2⟩; exact h2 hy2),
        if_neg (by rintro ⟨_, hy2⟩; linarith)]
      exact ⟨le_refl _, by linarith [Real.pi_pos]⟩

lemma sin_sq_half_add_cos_mul_cos (u v : ℝ) :
    Real.sin ((v - u) / 2) ^ 2 + Real.cos u * Real.cos v
      = Real.cos ((u + v) / 2) ^ 2 := by
  have hBA : (u + v) / 2 - (v - u) / 2 = u := by ring
  have hBA2 : (u + v) / 2 + (v - u) / 2 = v := by ring
  have hexp : Real.cos u * Real.cos v
      = Real.cos ((u + v) / 2 - (v - u) / 2) * Real.cos ((u + v) / 2 + (v - u) / 2) := by
    rw [hBA, hBA2]
  rw [hexp, Real.cos_sub, Real.cos_add]
  have hA := Real.sin_sq_add_cos_sq ((v - u) / 2)
  have hB := Real.sin_sq_add_cos_sq ((u + v) / 2)
  nlinarith [hA, hB]

/-- Claim C10.  For every real input, the intermediate `a` of `haversine`
lies in `[0, 1]` — so both square-root arguments `a` and `1 - a` are
non-negative and no domain error can occur — and the returned distance is
non-negative and at most `π * 6371` km. -/
theorem haversine_total_bounded (lat1 lon1 lat2 lon2 : ℝ) :
    0 ≤ hav_a lat1 lon1 lat2 lon2 ∧ hav_a lat1 lon1 lat2 lon2 ≤ 1
      ∧ 0 ≤ 1 - hav_a lat1 lon1 lat2 lon2
      ∧ 0 ≤ haversine lat1 lon1 lat2 lon2
      ∧ haversine lat1 lon1 lat2 lon2 ≤ Real.pi * 6371 := by
  have hlin : radians (lat2 - lat1) = radians lat2 - radians lat1 := by
    unfold radians
    ring
  have hkey : Real.sin (radians (lat2 - lat1) / 2) ^ 2
      + Real.cos (radians lat1) * Real.cos (radians lat2)
      = Real.cos ((radians lat1 + radians lat2) / 2) ^ 2 := by
    rw [hlin]
    exact sin_sq_half_add_cos_mul_cos (radians lat1) (radians lat2)
  have hs0 : 0 ≤ Real.sin (radians (lat2 - lat1) / 2) ^ 2 := sq_nonneg _
  have hs1 : Real.sin (radians (lat2 - lat1) / 2) ^ 2 ≤ 1 := Real.sin_sq_le_one _
  have ht0 : 0 ≤ Real.sin (radians (lon2 - lon1) / 2) ^ 2 := sq_nonneg _
  have ht1 : Real.sin (radians (lon2 - lon1) / 2) ^ 2 ≤ 1 := Real.sin_sq_le_one _
  have hsp0 : 0 ≤ Real.sin (radians (lat2 - lat1) / 2) ^ 2
      + Real.cos (radians lat1) * Real.cos (radians lat2) := by
    rw [hkey]
    exact sq_nonneg _
  have hsp1 : Real.sin (radians (lat2 - lat1) / 2) ^ 2
      + Real.cos (radians lat1) * Real.cos (radians lat2) ≤ 1 := by
    rw [hkey]
    exact Real.cos_sq_le_one _
  have ha_def : hav_a lat1 lon1 lat2 lon2
      = Real.sin (radians (lat2 - lat1) / 2) ^ 2
        + Real.cos (radians lat1) * Real.cos (radians lat2)
            * Real.sin (radians (lon2 - lon1) / 2) ^ 2 := rfl
  have ha0 : 0 ≤ hav_a lat1 lon1 lat2 lon2 := by
    rw [ha_def]
    nlinarith
  have ha1 : hav_a lat1 lon1 lat2 lon2 ≤ 1 := by
    rw [ha_def]
    nlinarith
  have hat := atan2_nonneg_le (Real.sqrt_nonneg (hav_a lat1 lon1 lat2 lon2))
    (Real.sqrt_nonneg (1 - hav_a lat1 lon1 lat2 lon2))
  have hhav : haversine lat1 lon1 lat2 lon2
      = 6371 * (2 * atan2 (Real.sqrt (hav_a lat1 lon1 lat2 lon2))
          (Real.sqrt (1 - hav_a lat1 lon1 lat2 lon2))) := rfl
  refine ⟨ha0, ha1, by linarith, ?_, ?_⟩
  · rw [hhav]
    linarith [hat.1]
  · rw [hhav]
    linarith [hat.2]
